import Mathlib

/-!
# Verification of the upload-ingest pipeline of `bangpii/server`

Shallow embedding of the two server variants in `server.js`:

* the **Firebase variant** (Express + multer + Firestore): routes
  `POST /api/upload`, `GET /api/files/:userId`, `DELETE /api/files/:fileId`;
* the **Mongo variant** (Express + multer + Mongoose): routes
  `POST /api/upload`, `GET /api/files/:userId`, `DELETE /api/files/:id`.

JavaScript strings are modelled as Lean `String`s, machine numbers as `Nat`
(all quantities involved — sizes, timestamps, the random component — are
non-negative integers in the source), the Firestore / MongoDB stores as lists
of records, and the `uploads/` blob area as a list of path strings.  Failure
of the external stores (disk write, Firestore `set`/`delete`, Mongoose
`save`) is injected through boolean fault flags, and the nondeterministic
inputs of a request handler (`Date.now()`, `Math.random()`, the generated
document / object ids) are passed in as explicit environment fields.
-/

/-! ## JavaScript-semantics helpers -/

/-- JS truthiness of an optional string field: `undefined` and the empty
string are falsy (`if (!userId || !userEmail)` in the source rejects both a
missing and an empty identity). -/
def jsTruthy : Option String → Bool
  | none => false
  | some s => s != ""

/-- JS `a || b` for an optional string `a`: used for
`fileName || req.file.originalname`. -/
def jsOr (a : Option String) (b : String) : String :=
  match a with
  | none => b
  | some s => if s = "" then b else s

/-- Replace every occurrence of the character `a` by `b`
(JS `s.replace(/a/g, 'b')` with a single-character pattern). -/
def replaceChar (a b : Char) (s : String) : String :=
  String.mk (s.data.map fun c => if c = a then b else c)

/-- The owner-key (partition-key) derivation
`userEmail.replace(/@/g, '_').replace(/\./g, '_')` used by the Firebase
variant for the Firestore document name under the `cloudpii` collection. -/
def userDocName (userEmail : String) : String :=
  replaceChar '.' '_' (replaceChar '@' '_' userEmail)

/-- Fuel-driven core of the decimal printer: prepends the decimal digits of
`n` to `acc`, consuming one unit of fuel per digit (any fuel above the digit
count, e.g. `n + 1`, is sufficient). -/
def decCharsCore : Nat → Nat → List Char → List Char
  | 0, _, acc => acc
  | fuel + 1, n, acc =>
      if n < 10 then Nat.digitChar n :: acc
      else decCharsCore fuel (n / 10) (Nat.digitChar (n % 10) :: acc)

/-- Decimal digit characters of a natural number, most significant first
(the digits a JS template literal prints for a non-negative integer). -/
def decChars (n : Nat) : List Char :=
  decCharsCore (n + 1) n []

/-- Decimal string representation of a natural number, as interpolated by a
JS template literal. -/
def natDec (n : Nat) : String :=
  String.mk (decChars n)

/-- Node `path.extname`: the suffix of the basename starting at its last
`'.'`; empty when the basename has no dot, when the only dot is its first
character (dotfiles such as `.bashrc`), or for `".."`. -/
def extname (p : String) : String :=
  let b := (p.data.reverse.takeWhile (fun c => c ≠ '/')).reverse
  if b = ['.', '.'] then ""
  else
    let afterDot := b.reverse.takeWhile (fun c => c ≠ '.')
    if afterDot.length = b.length then ""
    else if afterDot.length + 1 = b.length then ""
    else String.mk ('.' :: afterDot.reverse)

/-- The multer `diskStorage.filename` callback of both variants:
`` `${Date.now()}-${Math.round(Math.random() * 1E9)}${path.extname(file.originalname)}` ``.
`now` stands for `Date.now()` and `rand` for the sampled
`Math.round(Math.random() * 1E9)`. -/
def uniqueName (now rand : Nat) (originalname : String) : String :=
  natDec now ++ "-" ++ natDec rand ++ extname originalname

/-- The largest value `Math.round(Math.random() * 1E9)` can produce:
`Math.random()` ranges over `[0, 1)`, so the product ranges over `[0, 1E9)`
and rounding yields an integer in `{0, …, 10^9}`. -/
def randMax : Nat := 10 ^ 9

/-- Floor of the base-1024 logarithm,
`Math.floor(Math.log(bytes) / Math.log(1024))` for a positive integer
argument: the largest `i` with `1024 ^ i ≤ n`. -/
def log1024Core : Nat → Nat → Nat
  | 0, _ => 0
  | fuel + 1, n => if n < 1024 then 0 else log1024Core fuel (n / 1024) + 1

/-- Entry point of `log1024Core` with sufficient fuel. -/
def log1024 (n : Nat) : Nat := log1024Core (n + 1) n

/-- Render `q` hundredths as JS `parseFloat(x.toFixed(2))` renders the
number `q / 100`: at most two decimals, trailing zeros dropped. -/
def hundredthsStr (q : Nat) : String :=
  let ip := natDec (q / 100)
  let fr := q % 100
  if fr = 0 then ip
  else if fr % 10 = 0 then ip ++ "." ++ natDec (fr / 10)
  else if fr < 10 then ip ++ ".0" ++ natDec fr
  else ip ++ "." ++ natDec fr

/-- Helper `formatFileSize` of the Firebase variant: scales the byte count by the
largest power of 1024 not exceeding it (`Math.floor(Math.log(bytes)/Math.log(1024))`),
renders it with `toFixed(2)`/`parseFloat`, and appends the unit.  Produces a
human-readable **string**, e.g. `"4.88 KB"` for 5000 bytes. -/
def formatFileSize (bytes : Nat) : String :=
  if bytes = 0 then "0 Bytes"
  else
    let sizes := ["Bytes", "KB", "MB", "GB"]
    let i := log1024 bytes
    let q := (bytes * 100 * 2 + 1024 ^ i) / (2 * 1024 ^ i)
    hundredthsStr q ++ " " ++ (sizes.getD i "undefined")

/-- JS `String.prototype.includes` (for the non-empty literals used by
`getFileType`). -/
def strIncludes (s sub : String) : Bool :=
  decide (sub.data <:+: s.data)

/-- Helper `getFileType` of the Firebase variant. -/
def getFileType (mimetype : String) : String :=
  if mimetype.startsWith "image/" then "image"
  else if mimetype.startsWith "video/" then "video"
  else if mimetype = "application/pdf" then "pdf"
  else if strIncludes mimetype "document" || strIncludes mimetype "word" then "document"
  else if strIncludes mimetype "spreadsheet" || strIncludes mimetype "excel" then "spreadsheet"
  else if strIncludes mimetype "zip" || strIncludes mimetype "compressed" then "archive"
  else if strIncludes mimetype "text" then "text"
  else "file"

/-! ## Request / event model shared by both variants -/

/-- The binary attachment of a multipart request as multer sees it before
writing it (`file.originalname`, `file.size`, `file.mimetype`). -/
structure ReqFile where
  originalname : String
  size : Nat
  mimetype : String
deriving DecidableEq, Repr

/-- The external-store writes a single upload request can perform, in the
order the handler performs them. -/
inductive Ev where
  | blobWrite : Ev
  | metaWrite : Ev
deriving DecidableEq, Repr

/-! ## Firebase variant (Express + multer + Firestore) -/

/-- A `POST /api/upload` request of the Firebase variant: the optional
attachment plus the `userId`, `userEmail` and `fileName` body fields. -/
structure UploadReqFB where
  file : Option ReqFile
  userId : Option String
  userEmail : Option String
  fileName : Option String
deriving DecidableEq, Repr

/-- Multer's `req.file` after it saved the attachment to `uploads/`. -/
structure SavedFile where
  filename : String
  originalname : String
  size : Nat
  mimetype : String
deriving DecidableEq, Repr

/-- The `fileData` object the Firebase upload handler builds (lines 214–227
of the source). -/
structure FileData where
  id : String
  name : String
  originalName : String
  pemilik : String
  tanggal : String
  size : String
  type : String
  fileUrl : String
  serverFilename : String
  mimeType : String
  userId : String
deriving DecidableEq, Repr

/-- One Firestore document `cloudpii/<ownerKey>/files/<docId>`: the spread
`fileData` plus the server timestamp `createdAt` the write attaches. -/
structure FSRecord where
  ownerKey : String
  docId : String
  data : FileData
  createdAt : Nat
deriving DecidableEq, Repr

/-- The external state the Firebase variant touches: filenames written to
the `uploads/` blob area, and the Firestore documents. -/
structure ServerStateFB where
  blobs : List String
  store : List FSRecord
deriving DecidableEq, Repr

/-- Configuration, fault injection and per-request nondeterminism for the
Firebase variant.  `firebaseUp` is `firebaseInitialized && db`;
`blobWriteFails` makes multer's disk write error; `metaWriteFails`
(`fsListFails`, `fsDeleteFails`) make the Firestore `set` (query, delete)
throw with message `fsErrMsg`; `now` is `Date.now()`; `rand` is the sampled
`Math.round(Math.random() * 1E9)`; `randId` is the sampled
`Math.random().toString(36).substr(2, 9)`; `nowIso` is
`new Date().toISOString()`. -/
structure EnvFB where
  baseUrl : String
  firebaseUp : Bool
  blobWriteFails : Bool
  metaWriteFails : Bool
  fsListFails : Bool
  fsDeleteFails : Bool
  fsErrMsg : String
  now : Nat
  rand : Nat
  randId : String
  nowIso : String
deriving DecidableEq, Repr

/-- The JSON response of the Firebase upload handler. -/
structure UploadResFB where
  status : Nat
  success : Bool
  message : String
  file : Option FileData
  storage : Option String
  warning : Option String
  error : Option String
deriving DecidableEq, Repr

/-- The `fileData` object built by the Firebase upload handler from the
saved attachment and the request body. -/
def mkFileData (env : EnvFB) (saved : SavedFile) (userId userEmail : String)
    (fileName : Option String) : FileData :=
  { id := "file_" ++ natDec env.now ++ "_" ++ env.randId
    name := jsOr fileName saved.originalname
    originalName := saved.originalname
    pemilik := userEmail
    tanggal := env.nowIso
    size := formatFileSize saved.size
    type := getFileType saved.mimetype
    fileUrl := env.baseUrl ++ "/uploads/" ++ saved.filename
    serverFilename := saved.filename
    mimeType := saved.mimetype
    userId := userId }

/-- Route `POST /api/upload` of the Firebase variant, multer middleware included.
Returns the response, the resulting external state, and the trace of
external-store writes in the order they were performed.

Control flow of the source: multer saves the attachment (if any) to
`uploads/` before the handler runs — a disk failure there is routed to the
error middleware, which answers 500 and the handler never runs.  The handler
then rejects with 400 when there is no attachment, or when `userId` or
`userEmail` is falsy (at which point the blob is already on disk).  It
builds `fileData` and, only when Firebase is up, attempts the Firestore
`set`; a throwing `set` is caught and the handler still answers 201 with
`storage: 'local'` and a warning.  When Firebase is down it answers 201 with
`storage: 'local'`. -/
def uploadFB (env : EnvFB) (req : UploadReqFB) (st : ServerStateFB) :
    UploadResFB × ServerStateFB × List Ev :=
  match req.file with
  | none =>
      (⟨400, false, "", none, none, none, some "No file uploaded"⟩, st, [])
  | some f =>
      if env.blobWriteFails then
        (⟨500, false, "", none, none, none, some "Internal server error"⟩, st, [])
      else
        let stored := uniqueName env.now env.rand f.originalname
        let saved : SavedFile := ⟨stored, f.originalname, f.size, f.mimetype⟩
        let st1 : ServerStateFB := { st with blobs := st.blobs ++ ["uploads/" ++ stored] }
        if !(jsTruthy req.userId && jsTruthy req.userEmail) then
          (⟨400, false, "", none, none, none, some "User ID and email are required"⟩,
            st1, [Ev.blobWrite])
        else
          let fd := mkFileData env saved (req.userId.getD "") (req.userEmail.getD "")
            req.fileName
          if env.firebaseUp then
            if env.metaWriteFails then
              (⟨201, true, "File uploaded locally (Firebase failed)", some fd,
                  some "local", some ("Firebase save failed: " ++ env.fsErrMsg), none⟩,
                st1, [Ev.blobWrite])
            else
              let r : FSRecord :=
                ⟨userDocName (req.userEmail.getD ""), fd.id, fd, env.now⟩
              (⟨201, true, "File uploaded successfully to Firebase", some fd,
                  some "firebase", none, none⟩,
                { st1 with store := st1.store ++ [r] }, [Ev.blobWrite, Ev.metaWrite])
          else
            (⟨201, true, "File uploaded locally", some fd, some "local", none, none⟩,
              st1, [Ev.blobWrite])

/-- Firestore's `orderBy('createdAt', 'desc')` ordering. -/
def byCreatedAtDesc (a b : FSRecord) : Prop := b.createdAt ≤ a.createdAt

instance : DecidableRel byCreatedAtDesc := fun a b => Nat.decLe _ _

instance : IsTotal FSRecord byCreatedAtDesc :=
  ⟨fun a b => le_total b.createdAt a.createdAt⟩

instance : IsTrans FSRecord byCreatedAtDesc :=
  ⟨fun _ _ _ h₁ h₂ => le_trans h₂ h₁⟩

/-- The JSON response of `GET /api/files/:userId` (Firebase variant). -/
structure ListResFB where
  status : Nat
  success : Bool
  files : List FSRecord
  source : String
  count : Nat
deriving DecidableEq, Repr

/-- Route `GET /api/files/:userId` of the Firebase variant.  `emailQ` is the
`?email=` query parameter.  Rejects with 400 when it is falsy; when Firebase
is up, queries the owner's subcollection ordered by `createdAt` descending
(a throwing query is caught: empty list, `source: 'error'`, still 200); when
Firebase is down, answers 200 with an empty list and `source:
'unavailable'`. -/
def getFilesFB (env : EnvFB) (st : ServerStateFB) (emailQ : Option String) : ListResFB :=
  if !jsTruthy emailQ then ⟨400, false, [], "none", 0⟩
  else if env.firebaseUp then
    if env.fsListFails then ⟨200, true, [], "error", 0⟩
    else
      let part := st.store.filter fun r => r.ownerKey = userDocName (emailQ.getD "")
      let files := part.insertionSort byCreatedAtDesc
      ⟨200, true, files, "firebase", files.length⟩
  else ⟨200, true, [], "unavailable", 0⟩

/-- The JSON response of `DELETE /api/files/:fileId` (Firebase variant). -/
structure DeleteResFB where
  status : Nat
  success : Bool
  deletedFrom : Option String
deriving DecidableEq, Repr

/-- Route `DELETE /api/files/:fileId` of the Firebase variant.  Rejects with 400
when the `userEmail` body field is falsy.  When Firebase is up it issues a
Firestore `delete()` on `cloudpii/<ownerKey>/files/<fileId>` — which
succeeds whether or not the document exists — and answers 200; a throwing
delete is caught and answered 500.  When Firebase is down it skips the
database entirely and still answers 200 (`deletedFrom: 'local'`).  The
physical blob is never removed (`// TODO: Delete physical file` in the
source). -/
def deleteFileFB (env : EnvFB) (st : ServerStateFB) (fileId : String)
    (userEmail : Option String) : DeleteResFB × ServerStateFB :=
  if !jsTruthy userEmail then (⟨400, false, none⟩, st)
  else if env.firebaseUp then
    if env.fsDeleteFails then (⟨500, false, none⟩, st)
    else
      let key := userDocName (userEmail.getD "")
      let store' := st.store.filter fun r => !(r.ownerKey = key && r.docId = fileId)
      (⟨200, true, some "firebase"⟩, { st with store := store' })
  else (⟨200, true, some "local"⟩, st)

/-! ## Mongo variant (Express + multer + Mongoose) -/

/-- One document of the Mongoose `File` model (the `fileSchema`). -/
structure MFile where
  id : String
  name : String
  originalName : String
  size : Nat
  type : String
  path : String
  url : String
  userId : String
  uploadDate : Nat
deriving DecidableEq, Repr

/-- The external state the Mongo variant touches. -/
structure ServerStateM where
  blobs : List String
  store : List MFile
deriving DecidableEq, Repr

/-- Configuration, fault injection and per-request nondeterminism for the
Mongo variant.  `protocol` is `req.protocol` and `host` is
`req.get('host')` — the request's `Host` header; `saveFails` makes
`file.save()` throw; `newId` is the `_id` Mongoose assigns; `now` is the
`uploadDate` default `Date.now`. -/
structure EnvM where
  protocol : String
  host : String
  blobWriteFails : Bool
  saveFails : Bool
  now : Nat
  rand : Nat
  newId : String
deriving DecidableEq, Repr

/-- The client-facing descriptor the Mongo variant returns for a file. -/
structure MDescriptor where
  id : String
  name : String
  size : Nat
  type : String
  url : String
  uploadDate : Nat
deriving DecidableEq, Repr

/-- The descriptor built from a stored document:
`{id: file._id, name: file.originalName, size: file.size, type: file.type,
url: file.url, uploadDate: file.uploadDate}`. -/
def mongoDesc (f : MFile) : MDescriptor :=
  ⟨f.id, f.originalName, f.size, f.type, f.url, f.uploadDate⟩

/-- The JSON response of the Mongo upload handler. -/
structure UploadResM where
  status : Nat
  file : Option MDescriptor
  error : Option String
deriving DecidableEq, Repr

/-- Route `POST /api/upload` of the Mongo variant, multer middleware included.
Multer saves the attachment (if any) before the handler; the handler rejects
with 400 when there is no attachment or `userId` is falsy, builds the `File`
document — `name` is the **stored** filename, `url` is derived from
`req.protocol` and the request's `Host` header — and `await file.save()`;
a throwing save is caught and answered 500. -/
def uploadMongo (env : EnvM) (file? : Option ReqFile) (userId? : Option String)
    (st : ServerStateM) : UploadResM × ServerStateM × List Ev :=
  match file? with
  | none => (⟨400, none, some "No file uploaded"⟩, st, [])
  | some f =>
      if env.blobWriteFails then
        (⟨500, none, some "Internal server error"⟩, st, [])
      else
        let stored := uniqueName env.now env.rand f.originalname
        let st1 : ServerStateM := { st with blobs := st.blobs ++ ["uploads/" ++ stored] }
        if !jsTruthy userId? then
          (⟨400, none, some "User ID is required"⟩, st1, [Ev.blobWrite])
        else
          let doc : MFile :=
            { id := env.newId
              name := stored
              originalName := f.originalname
              size := f.size
              type := f.mimetype
              path := "uploads/" ++ stored
              url := env.protocol ++ "://" ++ env.host ++ "/uploads/" ++ stored
              userId := userId?.getD ""
              uploadDate := env.now }
          if env.saveFails then
            (⟨500, none, some "Failed to upload file"⟩, st1, [Ev.blobWrite])
          else
            (⟨201, some (mongoDesc doc), none⟩,
              { st1 with store := st1.store ++ [doc] }, [Ev.blobWrite, Ev.metaWrite])

/-- Mongoose's `.sort({ uploadDate: -1 })` ordering. -/
def byUploadDateDesc (a b : MFile) : Prop := b.uploadDate ≤ a.uploadDate

instance : DecidableRel byUploadDateDesc := fun a b => Nat.decLe _ _

instance : IsTotal MFile byUploadDateDesc :=
  ⟨fun a b => le_total b.uploadDate a.uploadDate⟩

instance : IsTrans MFile byUploadDateDesc :=
  ⟨fun _ _ _ h₁ h₂ => le_trans h₂ h₁⟩

/-- Route `GET /api/files/:userId` of the Mongo variant:
`File.find({userId}).sort({uploadDate: -1})`, mapped to descriptors. -/
def getFilesMongo (st : ServerStateM) (userId : String) : List MDescriptor :=
  (((st.store.filter fun f => f.userId = userId).insertionSort byUploadDateDesc).map
    mongoDesc)

/-- Route `DELETE /api/files/:id` of the Mongo variant: `File.findById(id)`,
404 when absent; otherwise the physical blob is removed if it exists
(`fs.existsSync`/`fs.unlinkSync`, best-effort) and the document is removed
(`File.findByIdAndDelete`), answering 200. -/
def deleteFileMongo (st : ServerStateM) (id : String) : Nat × ServerStateM :=
  match st.store.find? (fun f => f.id = id) with
  | none => (404, st)
  | some f =>
      let blobs' := if f.path ∈ st.blobs then st.blobs.erase f.path else st.blobs
      (200, ⟨blobs', st.store.filter fun g => !(g.id = id)⟩)

/-! ## Concrete sample inputs

These instantiate the end-to-end scenario of the spec: `report.pdf`,
5000 bytes, mime `application/pdf`, owner `alice@example.com`. -/

/-- The sample attachment of the spec's end-to-end scenario. -/
def fileReport : ReqFile := ⟨"report.pdf", 5000, "application/pdf"⟩

/-- A healthy environment for the Firebase variant. -/
def envFB0 : EnvFB :=
  { baseUrl := "http://localhost:8080"
    firebaseUp := true
    blobWriteFails := false
    metaWriteFails := false
    fsListFails := false
    fsDeleteFails := false
    fsErrMsg := "boom"
    now := 1000
    rand := 7
    randId := "abc123def"
    nowIso := "2026-01-01T00:00:00.000Z" }

/-- Firebase environment whose Firestore `set` throws. -/
def envFBmetaFail : EnvFB := { envFB0 with metaWriteFails := true }

/-- Firebase environment in which Firebase failed to initialize. -/
def envFBdown : EnvFB := { envFB0 with firebaseUp := false }

/-- A valid sample upload request for the Firebase variant. -/
def reqAlice : UploadReqFB :=
  ⟨some fileReport, some "u1", some "alice@example.com", none⟩

/-- A healthy environment for the Mongo variant. -/
def envM0 : EnvM :=
  { protocol := "http"
    host := "localhost:5000"
    blobWriteFails := false
    saveFails := false
    now := 1000
    rand := 7
    newId := "oid1" }

/-- Same as `envM0` except for the client-supplied `Host` header. -/
def envMevil : EnvM := { envM0 with host := "evil.example" }

/-- A sample stored Mongo document for the uploaded `report.pdf`. -/
def mfile0 : MFile :=
  { id := "oid1"
    name := "1000-7.pdf"
    originalName := "report.pdf"
    size := 5000
    type := "application/pdf"
    path := "uploads/1000-7.pdf"
    url := "http://localhost:5000/uploads/1000-7.pdf"
    userId := "u1"
    uploadDate := 1000 }

/-- A sample Mongo server state holding `mfile0` and its blob. -/
def mstate0 : ServerStateM := ⟨["uploads/1000-7.pdf"], [mfile0]⟩

/-- A sample `fileData` value as the Firebase handler would build it. -/
def fdSample : FileData :=
  { id := "file_1000_abc123def"
    name := "report.pdf"
    originalName := "report.pdf"
    pemilik := "alice@example.com"
    tanggal := "2026-01-01T00:00:00.000Z"
    size := "4.88 KB"
    type := "pdf"
    fileUrl := "http://localhost:8080/uploads/1000-7.pdf"
    serverFilename := "1000-7.pdf"
    mimeType := "application/pdf"
    userId := "u1" }

/-- Two sample Firestore records of the same owner, stored out of
chronological order. -/
def fsStore2 : List FSRecord :=
  [⟨userDocName "alice@example.com", "a", fdSample, 5⟩,
   ⟨userDocName "alice@example.com", "b", fdSample, 9⟩]

/-! ## Auxiliary lemmas -/

/-- Value of a decimal digit character (its codepoint minus the codepoint
of `'0'`). -/
def charVal (c : Char) : Nat := c.toNat - 48

/-- Positional value of a list of decimal digit characters. -/
def decVal (l : List Char) : Nat := l.foldl (fun a c => 10 * a + charVal c) 0

theorem data_mk (l : List Char) : (String.mk l).data = l := rfl

theorem charVal_digitChar {d : Nat} (h : d < 10) : charVal (Nat.digitChar d) = d := by
  interval_cases d <;> rfl

theorem decVal_append (l : List Char) (c : Char) :
    decVal (l ++ [c]) = 10 * decVal l + charVal c := by
  simp [decVal, List.foldl_append]

theorem decCharsCore_shift (fuel : Nat) : ∀ (n : Nat) (acc : List Char),
    decCharsCore fuel n acc = decCharsCore fuel n [] ++ acc := by
  induction fuel with
  | zero => intro n acc; rfl
  | succ fuel ih =>
    intro n acc
    by_cases h : n < 10
    · simp [decCharsCore, h]
    · simp only [decCharsCore, if_neg h]
      rw [ih (n / 10) (Nat.digitChar (n % 10) :: acc),
        ih (n / 10) [Nat.digitChar (n % 10)], List.append_assoc]
      rfl

theorem decCharsCore_fuel_irrel (n : Nat) : ∀ (f₁ f₂ : Nat) (acc : List Char),
    n < f₁ → n < f₂ → decCharsCore f₁ n acc = decCharsCore f₂ n acc := by
  induction n using Nat.strong_induction_on with
  | _ n ih =>
    intro f₁ f₂ acc h₁ h₂
    match f₁, f₂ with
    | g₁ + 1, g₂ + 1 =>
      by_cases h : n < 10
      · simp [decCharsCore, h]
      · simp only [decCharsCore, if_neg h]
        exact ih (n / 10) (Nat.div_lt_self (by omega) (by omega)) g₁ g₂ _
          (by omega) (by omega)

/-- The natural recursion satisfied by the decimal printer. -/
theorem decChars_eq (n : Nat) :
    decChars n = if n < 10 then [Nat.digitChar n]
      else decChars (n / 10) ++ [Nat.digitChar (n % 10)] := by
  by_cases h : n < 10
  · simp [decChars, decCharsCore, h]
  · rw [if_neg h]
    show decCharsCore (n + 1) n [] = _
    rw [show decCharsCore (n + 1) n []
        = decCharsCore n (n / 10) [Nat.digitChar (n % 10)] from by
      simp [decCharsCore, h]]
    rw [decCharsCore_shift n (n / 10) [Nat.digitChar (n % 10)]]
    congr 1
    exact decCharsCore_fuel_irrel (n / 10) n (n / 10 + 1) []
      (by omega) (by omega)

theorem decVal_decChars (n : Nat) : decVal (decChars n) = n := by
  induction n using Nat.strong_induction_on with
  | _ n ih =>
    rw [decChars_eq]
    split
    · next h => simp [decVal, charVal_digitChar h]
    · next h =>
      rw [decVal_append, ih (n / 10) (Nat.div_lt_self (by omega) (by omega)),
        charVal_digitChar (Nat.mod_lt n (by omega))]
      omega

theorem decChars_inj {m n : Nat} (h : decChars m = decChars n) : m = n := by
  have hv := congrArg decVal h
  rwa [decVal_decChars, decVal_decChars] at hv

/-- With the timestamp and the extension fixed, the generated storage name
determines the random component. -/
theorem uniqueName_rand_inj {now r₁ r₂ : Nat} {o : String}
    (h : uniqueName now r₁ o = uniqueName now r₂ o) : r₁ = r₂ := by
  have hd := congrArg String.data h
  simp only [uniqueName, String.data_append] at hd
  exact decChars_inj (List.append_cancel_left (List.append_cancel_right hd))

/-- Re-deriving an owner key from an already-derived owner key changes
nothing: the substitution has already eliminated every `'@'` and `'.'`. -/
theorem userDocName_idem (s : String) : userDocName (userDocName s) = userDocName s := by
  simp only [userDocName, replaceChar, data_mk, List.map_map]
  apply congrArg String.mk
  apply List.map_congr_left
  intro c _
  by_cases h1 : c = '@' <;> by_cases h2 : c = '.' <;>
    simp [Function.comp, h1, h2]

/-- A filename containing no dot has no extension. -/
theorem extname_eq_empty_of_no_dot {o : String} (h : ∀ c ∈ o.data, c ≠ '.') :
    extname o = "" := by
  have hall : ∀ c ∈ (o.data.reverse.takeWhile fun c => c ≠ '/').reverse.reverse,
      c ≠ '.' := by
    intro c hc
    rw [List.reverse_reverse] at hc
    exact h c (List.mem_reverse.mp ((List.takeWhile_sublist _).subset hc))
  have htW : ((o.data.reverse.takeWhile fun c => c ≠ '/').reverse.reverse.takeWhile
      fun c => c ≠ '.') = (o.data.reverse.takeWhile fun c => c ≠ '/').reverse.reverse := by
    rw [List.takeWhile_eq_self_iff]
    intro c hc
    simpa using hall c hc
  simp only [extname]
  split
  · rfl
  · rw [if_pos]
    exact congrArg List.length htW |>.trans (List.length_reverse _)

/-! ## Claims -/

/-- **C1** (amended).  The owner-key derivation is deterministic and even
idempotent — re-applying it to an already-derived key yields the same key —
and the two sample identities of the test set map to distinct partition
keys; it is however not injective on all identities: distinct identities can
be merged onto one partition key (see the counterexample). -/
theorem C1_ownerKey_deterministic :
    (∀ s : String, userDocName (userDocName s) = userDocName s) ∧
    userDocName "alice@example.com" ≠ userDocName "bob@test.org" :=
  ⟨userDocName_idem, by decide⟩

/-- **C1** counterexample: the two distinct identities `a.b@c` and `a@b.c`
are merged onto the single partition key `a_b_c`, so the derivation does not
map every two distinct user identities to two distinct partition keys. -/
theorem C1_counterexample :
    userDocName "a.b@c" = userDocName "a@b.c" ∧ "a.b@c" ≠ "a@b.c" :=
  ⟨by decide, by decide⟩

/-- **C6** (amended).  The generated storage name is the concatenation of
the decimal milliseconds timestamp, a dash, the decimal random component and
the original filename's extension (empty when the original name has no
dot); the random component is drawn from `{0, …, 10^9}` — at least 29 but
fewer than 30 bits of entropy — and the name is a pure function of one
timestamp and one random sample (the generator never re-samples or retries
on collision), so two uploads in the same millisecond with the same
extension are differentiated exactly when their random components differ. -/
theorem C6_storage_name_scheme :
    (∀ now rand o,
      uniqueName now rand o = natDec now ++ "-" ++ natDec rand ++ extname o) ∧
    (2 ^ 29 ≤ randMax + 1 ∧ randMax + 1 < 2 ^ 30) ∧
    (∀ now r₁ r₂ o, uniqueName now r₁ o = uniqueName now r₂ o ↔ r₁ = r₂) ∧
    (∀ o : String, (∀ c ∈ o.data, c ≠ '.') → extname o = "") := by
  refine ⟨fun _ _ _ => rfl, by norm_num [randMax], ?_,
    fun o h => extname_eq_empty_of_no_dot h⟩
  intro now r₁ r₂ o
  exact ⟨uniqueName_rand_inj, fun h => by rw [h]⟩

/-- **C6** witness: the hypothesis-bearing part instantiated at a concrete
dotless filename. -/
theorem C6_storage_name_scheme_witness :
    (∀ c ∈ "report".data, c ≠ '.') ∧ extname "report" = "" :=
  ⟨by decide, C6_storage_name_scheme.2.2.2 "report" (by decide)⟩

/-- **C6** counterexample to the claimed 30 bits: the random component
`Math.round(Math.random() * 1E9)` takes at most `randMax + 1 = 10^9 + 1`
distinct values, which is fewer than `2^30`, so its entropy is strictly
below 30 bits under any distribution over that range. -/
theorem C6_counterexample : randMax + 1 < 2 ^ 30 := by norm_num [randMax]

/-- **C2** (amended).  Every upload request that fails validation (missing
or falsy attachment / identity) is rejected with 400 and no metadata record
is created, in both variants; a request with no attachment also writes no
blob.  However when the attachment is present and only the identity is
missing, the blob has already been written to the storage area by the
multer middleware — which runs before the handler's validation — and it
remains on disk (see the counterexample). -/
theorem C2_validation_rejection :
    (∀ (env : EnvFB) (req : UploadReqFB) (st : ServerStateFB),
      env.blobWriteFails = false →
      (req.file = none ∨ (jsTruthy req.userId && jsTruthy req.userEmail) = false) →
      (uploadFB env req st).1.status = 400 ∧
      (uploadFB env req st).2.1.store = st.store ∧
      (req.file = none → (uploadFB env req st).2.1.blobs = st.blobs)) ∧
    (∀ (env : EnvM) (file? : Option ReqFile) (userId? : Option String)
      (st : ServerStateM),
      env.blobWriteFails = false →
      (file? = none ∨ jsTruthy userId? = false) →
      (uploadMongo env file? userId? st).1.status = 400 ∧
      (uploadMongo env file? userId? st).2.1.store = st.store ∧
      (file? = none → (uploadMongo env file? userId? st).2.1.blobs = st.blobs)) := by
  constructor
  · intro env req st hb hv
    rcases hreq : req.file with _ | f
    · simp [uploadFB, hreq]
    · rcases hv with h | h
      · rw [hreq] at h
        exact absurd h (by simp)
      · simp [uploadFB, hreq, hb, h]
  · intro env file? userId? st hb hv
    rcases hreq : file? with _ | f
    · simp [uploadMongo]
    · rcases hv with h | h
      · exact absurd (hreq ▸ h) (by simp)
      · simp [uploadMongo, hb, h]

/-- **C2** witness: a request with no attachment is rejected with 400,
leaving the blob area untouched. -/
theorem C2_validation_rejection_witness :
    (uploadFB envFB0 ⟨none, some "u1", some "alice@example.com", none⟩
        ⟨[], []⟩).1.status = 400 ∧
    (uploadFB envFB0 ⟨none, some "u1", some "alice@example.com", none⟩
        ⟨[], []⟩).2.1.blobs = [] := by
  obtain ⟨h1, _, h3⟩ := C2_validation_rejection.1 envFB0
    ⟨none, some "u1", some "alice@example.com", none⟩ ⟨[], []⟩ rfl (Or.inl rfl)
  exact ⟨h1, h3 rfl⟩

/-- **C2** counterexample: a request carrying a valid attachment but no
`userId` is rejected with 400, yet its blob is already in the storage area
— a write did occur before the rejection. -/
theorem C2_counterexample :
    (uploadFB envFB0 ⟨some fileReport, none, some "alice@example.com", none⟩
        ⟨[], []⟩).1.status = 400 ∧
    (uploadFB envFB0 ⟨some fileReport, none, some "alice@example.com", none⟩
        ⟨[], []⟩).2.1.blobs ≠ [] := by
  decide

/-- **C3** (amended).  When the blob write succeeds but the metadata write
fails, the Mongo variant surfaces a server error (500) and stores no record;
the Firebase variant instead reports success — 201 with `storage: 'local'`
and a warning carrying the Firestore error — while also storing no record
(see the counterexample). -/
theorem C3_metadata_failure_response :
    (∀ (env : EnvFB) (req : UploadReqFB) (f : ReqFile) (st : ServerStateFB),
      req.file = some f → env.blobWriteFails = false →
      jsTruthy req.userId = true → jsTruthy req.userEmail = true →
      env.firebaseUp = true → env.metaWriteFails = true →
      (uploadFB env req st).1.status = 201 ∧
      (uploadFB env req st).1.success = true ∧
      (uploadFB env req st).1.storage = some "local" ∧
      (uploadFB env req st).1.warning
        = some ("Firebase save failed: " ++ env.fsErrMsg) ∧
      (uploadFB env req st).2.1.store = st.store) ∧
    (∀ (env : EnvM) (f : ReqFile) (userId? : Option String) (st : ServerStateM),
      env.blobWriteFails = false → jsTruthy userId? = true → env.saveFails = true →
      (uploadMongo env (some f) userId? st).1.status = 500 ∧
      (uploadMongo env (some f) userId? st).1.file = none ∧
      (uploadMongo env (some f) userId? st).2.1.store = st.store) := by
  constructor
  · intro env req f st hreq hb hu he hup hm
    simp [uploadFB, hreq, hb, hu, he, hup, hm]
  · intro env f userId? st hb hu hs
    simp [uploadMongo, hb, hu, hs]

/-- **C3** witness: in the Mongo variant a failing `file.save()` after a
successful blob write yields 500 and leaves the store unchanged. -/
theorem C3_metadata_failure_response_witness :
    (uploadMongo { envM0 with saveFails := true } (some fileReport) (some "u1")
        ⟨[], []⟩).1.status = 500 ∧
    (uploadMongo { envM0 with saveFails := true } (some fileReport) (some "u1")
        ⟨[], []⟩).2.1.store = [] := by
  obtain ⟨h1, _, h3⟩ := C3_metadata_failure_response.2 { envM0 with saveFails := true }
    fileReport (some "u1") ⟨[], []⟩ rfl (by decide) rfl
  exact ⟨h1, h3⟩

/-- **C3** counterexample: in the Firebase variant an upload whose blob
write succeeded and whose Firestore write failed is answered 201 with
`success: true` — a server error (500) is not surfaced. -/
theorem C3_counterexample :
    (uploadFB envFBmetaFail reqAlice ⟨[], []⟩).1.status = 201 ∧
    (uploadFB envFBmetaFail reqAlice ⟨[], []⟩).1.success = true ∧
    (uploadFB envFBmetaFail reqAlice ⟨[], []⟩).1.status ≠ 500 := by
  decide

/-- **C7** (confirmed).  In both variants, the only possible write traces of
an upload are no write, a blob write alone, or a blob write followed by the
metadata write — so whenever the metadata write happens, the blob write has
completed before it; and when the blob write fails the request is answered
500 with the state (blob area and metadata store) unchanged, so no metadata
record is created. -/
theorem C7_blob_write_precedes_metadata :
    (∀ (env : EnvFB) (req : UploadReqFB) (st : ServerStateFB),
      (Ev.metaWrite ∈ (uploadFB env req st).2.2 →
        (uploadFB env req st).2.2 = [Ev.blobWrite, Ev.metaWrite]) ∧
      (∀ f, env.blobWriteFails = true → req.file = some f →
        (uploadFB env req st).1.status = 500 ∧ (uploadFB env req st).2.1 = st)) ∧
    (∀ (env : EnvM) (file? : Option ReqFile) (userId? : Option String)
      (st : ServerStateM),
      (Ev.metaWrite ∈ (uploadMongo env file? userId? st).2.2 →
        (uploadMongo env file? userId? st).2.2 = [Ev.blobWrite, Ev.metaWrite]) ∧
      (∀ f, env.blobWriteFails = true → file? = some f →
        (uploadMongo env file? userId? st).1.status = 500 ∧
        (uploadMongo env file? userId? st).2.1 = st)) := by
  constructor
  · intro env req st
    constructor
    · rcases hreq : req.file with _ | f
      · simp [uploadFB, hreq]
      · simp only [uploadFB, hreq]
        split_ifs <;> simp
    · intro f hb hreq
      simp [uploadFB, hreq, hb]
  · intro env file? userId? st
    constructor
    · rcases hreq : file? with _ | f
      · simp [uploadMongo]
      · simp only [uploadMongo]
        split_ifs <;> simp
    · intro f hb hreq
      simp [uploadMongo, hreq, hb]

/-- **C7** witness: a failing blob write on a concrete valid request yields
500 and an unchanged state, and the successful run's trace is the blob
write followed by the metadata write. -/
theorem C7_blob_write_precedes_metadata_witness :
    ((uploadFB { envFB0 with blobWriteFails := true } reqAlice ⟨[], []⟩).1.status = 500 ∧
      (uploadFB { envFB0 with blobWriteFails := true } reqAlice ⟨[], []⟩).2.1
        = ⟨[], []⟩) ∧
    (uploadFB envFB0 reqAlice ⟨[], []⟩).2.2 = [Ev.blobWrite, Ev.metaWrite] := by
  refine ⟨(C7_blob_write_precedes_metadata.1 { envFB0 with blobWriteFails := true }
    reqAlice ⟨[], []⟩).2 fileReport rfl rfl, ?_⟩
  exact (C7_blob_write_precedes_metadata.1 envFB0 reqAlice ⟨[], []⟩).1 (by decide)

/-- **C9** (amended).  In the Firebase variant the descriptor's `fileUrl`
equals the configured `BASE_URL` followed by the static mount segment
`/uploads/` and the generated stored name — the only client influence on it
is the original filename's extension inside the stored name.  In the Mongo
variant, however, the URL prefix is derived from the request itself:
`req.protocol` and the client-supplied `Host` header
(`${req.protocol}://${req.get('host')}/uploads/${filename}`), so part of
the URL is taken from client-supplied request data (see the
counterexample). -/
theorem C9_access_url :
    (∀ (env : EnvFB) (req : UploadReqFB) (f : ReqFile) (st : ServerStateFB),
      req.file = some f → env.blobWriteFails = false →
      jsTruthy req.userId = true → jsTruthy req.userEmail = true →
      ((uploadFB env req st).1.file.map FileData.fileUrl)
        = some (env.baseUrl ++ "/uploads/"
            ++ uniqueName env.now env.rand f.originalname)) ∧
    (∀ (env : EnvM) (f : ReqFile) (userId? : Option String) (st : ServerStateM),
      env.blobWriteFails = false → env.saveFails = false → jsTruthy userId? = true →
      ((uploadMongo env (some f) userId? st).1.file.map MDescriptor.url)
        = some (env.protocol ++ "://" ++ env.host ++ "/uploads/"
            ++ uniqueName env.now env.rand f.originalname)) := by
  constructor
  · intro env req f st hreq hb hu he
    simp only [uploadFB, hreq, hb]
    simp only [hu, he]
    by_cases hup : env.firebaseUp <;> by_cases hm : env.metaWriteFails <;>
      simp [hup, hm, mkFileData]
  · intro env f userId? st hb hs hu
    simp [uploadMongo, hb, hs, hu, mongoDesc]

/-- **C9** witness: the Firebase URL formula instantiated on the sample
request. -/
theorem C9_access_url_witness :
    ((uploadFB envFB0 reqAlice ⟨[], []⟩).1.file.map FileData.fileUrl)
      = some ("http://localhost:8080" ++ "/uploads/" ++ uniqueName 1000 7 "report.pdf") :=
  C9_access_url.1 envFB0 reqAlice fileReport ⟨[], []⟩ rfl rfl (by decide) (by decide)

/-- **C9** counterexample: two Mongo uploads identical in every respect
except the client-supplied `Host` header receive different `url` values —
part of the URL is taken from client-supplied request data, and it is not
built from a configured base URL. -/
theorem C9_counterexample :
    ((uploadMongo envM0 (some fileReport) (some "u1") ⟨[], []⟩).1.file.map
        MDescriptor.url)
      ≠ ((uploadMongo envMevil (some fileReport) (some "u1") ⟨[], []⟩).1.file.map
        MDescriptor.url) := by
  decide


/-- When Firebase is unavailable, the listing route always answers with an
empty file list. -/
theorem getFilesFB_files_nil_of_down (env : EnvFB) (st : ServerStateFB)
    (em : Option String) (hup : env.firebaseUp = false) :
    (getFilesFB env st em).files = [] := by
  unfold getFilesFB
  split_ifs <;> simp_all

/-- When the owner has no records in the store, the listing route answers
with an empty file list. -/
theorem getFilesFB_files_nil_of_fresh (env : EnvFB) (st : ServerStateFB)
    (em : String) (hfresh : ∀ r ∈ st.store, r.ownerKey ≠ userDocName em) :
    (getFilesFB env st (some em)).files = [] := by
  have hfilter : st.store.filter (fun r => r.ownerKey = userDocName em) = [] := by
    rw [List.filter_eq_nil_iff]
    intro r hr
    simpa using hfresh r hr
  unfold getFilesFB
  split_ifs
  · rfl
  · rfl
  · show List.insertionSort byCreatedAtDesc
      (st.store.filter fun r => r.ownerKey = userDocName em) = []
    rw [hfilter]
    rfl
  · rfl

/-- The record-based delete route of the Firebase variant never removes a
blob (blob deletion is an unimplemented TODO in the source). -/
theorem deleteFileFB_blobs_unchanged (env : EnvFB) (st : ServerStateFB)
    (id : String) (em : Option String) :
    (deleteFileFB env st id em).2.blobs = st.blobs := by
  unfold deleteFileFB
  split_ifs <;> rfl

/-- **C10** (confirmed).  In the Firebase variant, when the metadata
backend is unavailable (or its write errors), a valid upload still writes
the blob and is answered 201 `success: true` with `storage: 'local'`, while
the metadata store is left unchanged — no record is created anywhere.  A
subsequent listing returns the empty sequence (always, when Firebase is
down; and for any owner with no pre-existing records, when only the write
failed), and the record-based delete operation never removes any blob, so
the uploaded blob can never be deleted through it. -/
theorem C10_local_upload_invisible :
    ∀ (env : EnvFB) (req : UploadReqFB) (f : ReqFile) (st : ServerStateFB),
      req.file = some f → env.blobWriteFails = false →
      jsTruthy req.userId = true → jsTruthy req.userEmail = true →
      (env.firebaseUp = false ∨ env.metaWriteFails = true) →
      (uploadFB env req st).1.status = 201 ∧
      (uploadFB env req st).1.success = true ∧
      (uploadFB env req st).1.storage = some "local" ∧
      (uploadFB env req st).2.1.store = st.store ∧
      (uploadFB env req st).2.1.blobs
        = st.blobs ++ ["uploads/" ++ uniqueName env.now env.rand f.originalname] ∧
      (env.firebaseUp = false →
        ∀ em, (getFilesFB env (uploadFB env req st).2.1 em).files = []) ∧
      (∀ em, req.userEmail = some em →
        (∀ r ∈ st.store, r.ownerKey ≠ userDocName em) →
        (getFilesFB env (uploadFB env req st).2.1 (some em)).files = []) ∧
      (∀ (env₂ : EnvFB) (st₂ : ServerStateFB) (id : String) (em : Option String),
        (deleteFileFB env₂ st₂ id em).2.blobs = st₂.blobs) := by
  intro env req f st hreq hb hu he hlocal
  have hmain : (uploadFB env req st).1.status = 201 ∧
      (uploadFB env req st).1.success = true ∧
      (uploadFB env req st).1.storage = some "local" ∧
      (uploadFB env req st).2.1.store = st.store ∧
      (uploadFB env req st).2.1.blobs
        = st.blobs ++ ["uploads/" ++ uniqueName env.now env.rand f.originalname] := by
    rcases hlocal with hup | hm
    · simp [uploadFB, hreq, hb, hu, he, hup]
    · by_cases hup : env.firebaseUp <;>
        simp [uploadFB, hreq, hb, hu, he, hup, hm]
  obtain ⟨h1, h2, h3, h4, h5⟩ := hmain
  refine ⟨h1, h2, h3, h4, h5, ?_, ?_,
    fun env₂ st₂ id em => deleteFileFB_blobs_unchanged env₂ st₂ id em⟩
  · intro hdown em
    exact getFilesFB_files_nil_of_down env _ em hdown
  · intro em hem hfresh
    apply getFilesFB_files_nil_of_fresh
    rw [h4]
    exact hfresh

/-- **C10** witness: with Firebase down, the sample upload is answered 201
`storage: 'local'`, and the owner's subsequent listing is empty. -/
theorem C10_local_upload_invisible_witness :
    (uploadFB envFBdown reqAlice ⟨[], []⟩).1.status = 201 ∧
    (uploadFB envFBdown reqAlice ⟨[], []⟩).1.storage = some "local" ∧
    (getFilesFB envFBdown (uploadFB envFBdown reqAlice ⟨[], []⟩).2.1
        (some "alice@example.com")).files = [] := by
  obtain ⟨h1, _, h3, _, _, h6, _, _⟩ := C10_local_upload_invisible envFBdown reqAlice
    fileReport ⟨[], []⟩ rfl rfl (by decide) (by decide) (Or.inl rfl)
  exact ⟨h1, h3, h6 rfl (some "alice@example.com")⟩

/-- Deleting an id that has no record answers 404 and changes nothing
(Mongo variant). -/
theorem deleteFileMongo_absent (st : ServerStateM) (id : String)
    (h : st.store.find? (fun f => f.id = id) = none) :
    deleteFileMongo st id = (404, st) := by
  unfold deleteFileMongo
  rw [h]

/-- After a delete, no record with the deleted id remains (Mongo variant). -/
theorem deleteFileMongo_store_clear (st : ServerStateM) (id : String) :
    ∀ g ∈ (deleteFileMongo st id).2.store, ¬ g.id = id := by
  intro g hg
  unfold deleteFileMongo at hg
  rcases h : st.store.find? (fun f => f.id = id) with _ | f
  · rw [h] at hg
    simpa using List.find?_eq_none.mp h g hg
  · rw [h] at hg
    simp at hg
    exact hg.2

/-- **C4** (amended).  The Mongo variant behaves as claimed: deleting an
absent id answers 404 (not a fatal error) and leaves the state unchanged —
including a second delete of an already-deleted id — and deleting a present
id answers 200, removes the blob when it exists (best-effort: an absent
blob is benign), and removes the record.  The Firebase variant however
never removes the physical blob (an unimplemented TODO), and because a
Firestore `delete()` succeeds whether or not the document exists, it
answers 200 success even when the record is absent — it never returns 404
for an absent record. -/
theorem C4_delete_semantics :
    (∀ (st : ServerStateM) (id : String),
      st.store.find? (fun f => f.id = id) = none →
      deleteFileMongo st id = (404, st)) ∧
    (∀ (st : ServerStateM) (id : String) (f : MFile),
      st.store.find? (fun f => f.id = id) = some f →
      (deleteFileMongo st id).1 = 200 ∧
      (deleteFileMongo st id).2.blobs
        = (if f.path ∈ st.blobs then st.blobs.erase f.path else st.blobs) ∧
      ∀ g ∈ (deleteFileMongo st id).2.store, ¬ g.id = id) ∧
    (∀ (st : ServerStateM) (id : String),
      (deleteFileMongo (deleteFileMongo st id).2 id).1 = 404) ∧
    (∀ (env : EnvFB) (st : ServerStateFB) (id : String) (em : String),
      em ≠ "" → env.firebaseUp = true → env.fsDeleteFails = false →
      (deleteFileFB env st id (some em)).1.status = 200 ∧
      (deleteFileFB env st id (some em)).1.success = true ∧
      (deleteFileFB env st id (some em)).2.blobs = st.blobs) := by
  refine ⟨deleteFileMongo_absent, ?_, ?_, ?_⟩
  · intro st id f h
    refine ⟨by simp [deleteFileMongo, h], by simp [deleteFileMongo, h],
      deleteFileMongo_store_clear st id⟩
  · intro st id
    have h2 : (deleteFileMongo st id).2.store.find? (fun f => f.id = id) = none := by
      rw [List.find?_eq_none]
      intro x hx
      simpa using deleteFileMongo_store_clear st id x hx
    rw [deleteFileMongo_absent _ id h2]
  · intro env st id em hem hup hdel
    have : jsTruthy (some em) = true := by simp [jsTruthy, hem]
    simp [deleteFileFB, this, hup, hdel]

/-- **C4** witness: on a concrete store, deleting the present id answers
200 and erases the blob; deleting it a second time answers 404; and the
Firebase delete leaves the blob area untouched. -/
theorem C4_delete_semantics_witness :
    ((deleteFileMongo mstate0 "oid1").1 = 200 ∧
      (deleteFileMongo (deleteFileMongo mstate0 "oid1").2 "oid1").1 = 404) ∧
    (deleteFileFB envFB0 ⟨["uploads/1000-7.pdf"], []⟩ "file_1"
        (some "alice@example.com")).2.blobs = ["uploads/1000-7.pdf"] :=
  ⟨⟨(C4_delete_semantics.2.1 mstate0 "oid1" mfile0 rfl).1,
    C4_delete_semantics.2.2.1 mstate0 "oid1"⟩,
    (C4_delete_semantics.2.2.2 envFB0 ⟨["uploads/1000-7.pdf"], []⟩ "file_1"
      "alice@example.com" (by decide) rfl rfl).2.2⟩

/-- **C4** counterexample: in the Firebase variant, a delete request for an
id with no record (empty store) is answered 200 success — not the 404 the
claim requires for an absent record. -/
theorem C4_counterexample :
    (deleteFileFB envFB0 ⟨[], []⟩ "file_1" (some "alice@example.com")).1.status = 200 ∧
    ¬ (deleteFileFB envFB0 ⟨[], []⟩ "file_1" (some "alice@example.com")).1.status = 404 := by
  decide

/-- **C5** (amended).  The round-trip holds in the Mongo variant: after a
successful upload of `report.pdf` (5000 bytes) into an empty store, the
returned descriptor and the owner's listing consist of exactly one entry
whose `name` equals the user-supplied original name and whose `size` equals
the byte count as a number (5000), and after deleting that id the listing
is empty.  In the Firebase variant the descriptor's `size` is instead the
human-formatted **string** produced by `formatFileSize` (e.g. `"4.88 KB"`
for 5000 bytes), not the numeric byte count, and its `name` is the
client-supplied `fileName` field when present, falling back to the original
name. -/
theorem C5_round_trip :
    (∀ (env : EnvM) (uid : String), uid ≠ "" →
      env.blobWriteFails = false → env.saveFails = false →
      ∃ d : MDescriptor,
        (uploadMongo env (some fileReport) (some uid) ⟨[], []⟩).1.status = 201 ∧
        (uploadMongo env (some fileReport) (some uid) ⟨[], []⟩).1.file = some d ∧
        d.name = "report.pdf" ∧ d.size = 5000 ∧
        getFilesMongo (uploadMongo env (some fileReport) (some uid)
          ⟨[], []⟩).2.1 uid = [d] ∧
        (deleteFileMongo (uploadMongo env (some fileReport) (some uid)
          ⟨[], []⟩).2.1 d.id).1 = 200 ∧
        getFilesMongo (deleteFileMongo (uploadMongo env (some fileReport) (some uid)
          ⟨[], []⟩).2.1 d.id).2 uid = []) ∧
    (∀ (env : EnvFB) (st : ServerStateFB) (req : UploadReqFB) (f : ReqFile),
      req.file = some f → env.blobWriteFails = false →
      jsTruthy req.userId = true → jsTruthy req.userEmail = true →
      ((uploadFB env req st).1.file.map FileData.size)
        = some (formatFileSize f.size) ∧
      ((uploadFB env req st).1.file.map FileData.name)
        = some (jsOr req.fileName f.originalname)) := by
  constructor
  · intro env uid hu hb hs
    have htr : jsTruthy (some uid) = true := by simp [jsTruthy, hu]
    refine ⟨mongoDesc
      { id := env.newId
        name := uniqueName env.now env.rand "report.pdf"
        originalName := "report.pdf"
        size := 5000
        type := "application/pdf"
        path := "uploads/" ++ uniqueName env.now env.rand "report.pdf"
        url := env.protocol ++ "://" ++ env.host ++ "/uploads/"
          ++ uniqueName env.now env.rand "report.pdf"
        userId := uid
        uploadDate := env.now }, ?_, ?_, rfl, rfl, ?_, ?_, ?_⟩ <;>
      simp [uploadMongo, getFilesMongo, deleteFileMongo, fileReport, hb, hs, htr,
        mongoDesc, List.insertionSort, List.orderedInsert]
  · intro env st req f hreq hb hu he
    simp only [uploadFB, hreq, hb]
    simp only [hu, he]
    by_cases hup : env.firebaseUp <;> by_cases hm : env.metaWriteFails <;>
      simp [hup, hm, mkFileData]

/-- **C5** witness: the Mongo round-trip instantiated on a healthy concrete
environment and owner `u1`. -/
theorem C5_round_trip_witness :
    ∃ d : MDescriptor,
      (uploadMongo envM0 (some fileReport) (some "u1") ⟨[], []⟩).1.status = 201 ∧
      (uploadMongo envM0 (some fileReport) (some "u1") ⟨[], []⟩).1.file = some d ∧
      d.name = "report.pdf" ∧ d.size = 5000 ∧
      getFilesMongo (uploadMongo envM0 (some fileReport) (some "u1")
        ⟨[], []⟩).2.1 "u1" = [d] ∧
      (deleteFileMongo (uploadMongo envM0 (some fileReport) (some "u1")
        ⟨[], []⟩).2.1 d.id).1 = 200 ∧
      getFilesMongo (deleteFileMongo (uploadMongo envM0 (some fileReport) (some "u1")
        ⟨[], []⟩).2.1 d.id).2 "u1" = [] :=
  C5_round_trip.1 envM0 "u1" (by decide) rfl rfl

/-- **C5** counterexample: in the Firebase variant the descriptor returned
for the 5000-byte `report.pdf` carries `size = "4.88 KB"` — a formatted
string — which is not the decimal numeral of the input's byte count, so
`size == 5000` fails there. -/
theorem C5_counterexample :
    ((uploadFB envFB0 reqAlice ⟨[], []⟩).1.file.map FileData.size)
      = some "4.88 KB" ∧
    ((uploadFB envFB0 reqAlice ⟨[], []⟩).1.file.map FileData.size)
      ≠ some (natDec 5000) := by
  decide

/-- **C8** (confirmed).  Listing a user's files answers 400 when the
identity is missing (or empty); otherwise, with the metadata backend
healthy, it answers 200 with exactly the records of the owner's partition —
membership in the response is equivalent to being a store record carrying
the owner's key — ordered by creation time descending, and the empty
sequence (not an error) when the owner has no records.  The Mongo variant's
listing likewise returns exactly the owner's documents, ordered by
`uploadDate` descending. -/
theorem C8_listing :
    (∀ (env : EnvFB) (st : ServerStateFB),
      (getFilesFB env st none).status = 400 ∧
      (getFilesFB env st (some "")).status = 400) ∧
    (∀ (env : EnvFB) (st : ServerStateFB) (em : String),
      em ≠ "" → env.firebaseUp = true → env.fsListFails = false →
      (getFilesFB env st (some em)).status = 200 ∧
      List.Sorted byCreatedAtDesc (getFilesFB env st (some em)).files ∧
      (∀ r, r ∈ (getFilesFB env st (some em)).files ↔
        r ∈ st.store ∧ r.ownerKey = userDocName em) ∧
      ((∀ r ∈ st.store, r.ownerKey ≠ userDocName em) →
        (getFilesFB env st (some em)).files = [])) ∧
    (∀ (st : ServerStateM) (uid : String),
      List.Sorted (fun a b : MDescriptor => b.uploadDate ≤ a.uploadDate)
        (getFilesMongo st uid) ∧
      (∀ d, d ∈ getFilesMongo st uid ↔
        ∃ f, f ∈ st.store ∧ f.userId = uid ∧ d = mongoDesc f)) := by
  refine ⟨?_, ?_, ?_⟩
  · intro env st
    constructor <;> rfl
  · intro env st em hem hup hlf
    have htr : jsTruthy (some em) = true := by simp [jsTruthy, hem]
    have hred : (getFilesFB env st (some em)).files
        = (st.store.filter fun r => r.ownerKey = userDocName em).insertionSort
          byCreatedAtDesc := by
      simp [getFilesFB, htr, hup, hlf]
    refine ⟨by simp [getFilesFB, htr, hup, hlf], ?_, ?_, ?_⟩
    · rw [hred]
      exact List.sorted_insertionSort byCreatedAtDesc _
    · intro r
      rw [hred, List.mem_insertionSort, List.mem_filter]
      simp
    · intro hfresh
      exact getFilesFB_files_nil_of_fresh env st em hfresh
  · intro st uid
    constructor
    · have hs := List.sorted_insertionSort byUploadDateDesc
        (st.store.filter fun f => f.userId = uid)
      exact List.Pairwise.map mongoDesc (fun a b h => h) hs
    · intro d
      simp only [getFilesMongo, List.mem_map, List.mem_insertionSort,
        List.mem_filter]
      constructor
      · rintro ⟨f, ⟨hf, hui⟩, rfl⟩
        exact ⟨f, hf, by simpa using hui, rfl⟩
      · rintro ⟨f, hf, hui, rfl⟩
        exact ⟨f, ⟨hf, by simpa using hui⟩, rfl⟩

/-- **C8** witness: on a concrete two-record store the listing for the
owner answers 200 with a sorted file list, and the listing with a missing
identity answers 400. -/
theorem C8_listing_witness :
    (getFilesFB envFB0 ⟨[], fsStore2⟩ (some "alice@example.com")).status = 200 ∧
    List.Sorted byCreatedAtDesc
      (getFilesFB envFB0 ⟨[], fsStore2⟩ (some "alice@example.com")).files ∧
    (getFilesFB envFB0 ⟨[], fsStore2⟩ none).status = 400 :=
  ⟨(C8_listing.2.1 envFB0 ⟨[], fsStore2⟩ "alice@example.com" (by decide) rfl rfl).1,
   (C8_listing.2.1 envFB0 ⟨[], fsStore2⟩ "alice@example.com" (by decide) rfl rfl).2.1,
   (C8_listing.1 envFB0 ⟨[], fsStore2⟩).1⟩
